import Mathlib

/-!
Formal model of the clause-backend document-analysis core, with theorems
checking the specification's claims against the code.

Python strings are modelled as `List Char` (one element per code point, which
matches Python's `len` and slicing semantics).  Python `int` is modelled as
`Int` (or `Nat` where the source value is a length/count and hence
non-negative).  Python `float` page geometry is modelled as `ℚ`; `round(x, 2)`
is modelled as rounding `x * 100` to the nearest integer (Python's float
`round` uses banker's rounding on binary floats, a difference that only shows
up at exact half-way ties, which none of the claims depend on).  Whitespace
predicates model the ASCII whitespace characters recognised by Python's
`str.split` / `str.strip` / `\s`; the Unicode-only whitespace code points are
not modelled.

Sources embedded here:
  scripts/document_chunker.py      (DocumentChunker)
  scripts/rag_analyzer.py          (RAGAnalyzer: consolidate_analysis,
                                    _get_severity_level, analyze_chunk's
                                    response handling, _parse_amount,
                                    _create_highlights_with_coordinates,
                                    _get_default_position)
  scripts/pdf_coordinate_extractor.py (PDFCoordinateExtractor)
  app/pii_redaction.py             (PIIEncryption)
-/

/-- Python strings are modelled as lists of characters. -/
abbrev Str := List Char

/-- ASCII whitespace, as recognised by Python's `str.strip`, `str.split` and
regex `\s` (space, tab, newline, carriage return, vertical tab, form feed). -/
def pyIsSpace (c : Char) : Bool :=
  c == ' ' || c == '\t' || c == '\n' || c == '\r' || c == '\x0b' || c == '\x0c'

/-- Python `str.strip()` with no arguments: drop leading and trailing
whitespace. -/
def pyStrip (s : Str) : Str :=
  ((s.dropWhile pyIsSpace).reverse.dropWhile pyIsSpace).reverse

/-- Helper for the string splitters: prepend a character to the first piece of
a split result. -/
def consHead (c : Char) : List Str → List Str
  | [] => [[c]]
  | h :: t => (c :: h) :: t

/-- Python `text.split('\n\n')`: split on each non-overlapping, leftmost
occurrence of a blank-line separator. -/
def splitNN : Str → List Str
  | [] => [[]]
  | '\n' :: '\n' :: rest => [] :: splitNN rest
  | c :: rest => consHead c (splitNN rest)

/-- Head of a string is whitespace (`False` for the empty string). -/
def headIsSpace : Str → Bool
  | [] => false
  | c :: _ => pyIsSpace c

/-- Sentence-ending punctuation of the regex class `[.!?]` in
`document_chunker.py` line 41. -/
def isSentEnd (c : Char) : Bool :=
  c == '.' || c == '!' || c == '?'

/-- Worker for `splitSent`.  The flag records that we are inside the
whitespace run that follows a sentence break (those characters were consumed
by the `\s+` of the splitting regex). -/
def splitSentGo : Bool → Str → List Str
  | _, [] => [[]]
  | skipWs, c :: rest =>
    if skipWs && pyIsSpace c then splitSentGo true rest
    else if isSentEnd c && headIsSpace rest then [c] :: splitSentGo true rest
    else consHead c (splitSentGo false rest)

/-- Python `re.split(r'(?<=[.!?])\s+', para)` (document_chunker.py line 41):
split at each maximal whitespace run that directly follows sentence-ending
punctuation, consuming the whitespace. -/
def splitSent (s : Str) : List Str :=
  splitSentGo false s

/-- `DocumentChunker.estimate_tokens`: `len(text) // 4`. -/
def estimate_tokens (s : Str) : Nat :=
  s.length / 4

/-- Python `' '.join(pieces)`. -/
def joinSp (ps : List Str) : Str :=
  List.intercalate [' '] ps

/-- A chunk record as built by `DocumentChunker.chunk_document`.
`total_chunks` is retrofitted at the end of the call (it is built as `0`
first, standing for the key being initially absent from the Python dict). -/
structure Chunk where
  text : Str
  tokens : Nat
  chunk_index : Nat
  total_chunks : Nat
deriving DecidableEq, Repr

/-- Loop state of `chunk_document`: emitted chunks, the pieces of the chunk
being built, and the running token counter. -/
structure ChunkState where
  chunks : List Chunk
  current_chunk : List Str
  current_tokens : Nat
deriving DecidableEq, Repr

/-- Close the chunk under construction: `chunks.append({'text': ..., 'tokens':
..., 'chunk_index': len(chunks) + 1})` (document_chunker.py lines 47-52,
67-72 and 86-91). -/
def closeChunk (chunks : List Chunk) (current_chunk : List Str) : List Chunk :=
  chunks ++ [⟨joinSp current_chunk, estimate_tokens (joinSp current_chunk), chunks.length + 1, 0⟩]

/-- Body of the sentence loop of `chunk_document` (document_chunker.py lines
42-62), processing one sentence of an oversized paragraph. -/
def stepSentence (max_tokens : Int) (st : ChunkState) (sentence : Str) : ChunkState :=
  let sentence_tokens := estimate_tokens sentence
  if (st.current_tokens : Int) + sentence_tokens > max_tokens then
    if st.current_chunk ≠ [] then
      let chunks' := closeChunk st.chunks st.current_chunk
      -- keep the last two sentences for overlap
      let overlap_text :=
        if 2 ≤ st.current_chunk.length then
          joinSp (st.current_chunk.drop (st.current_chunk.length - 2))
        else []
      let current' := if overlap_text ≠ [] then [overlap_text, sentence] else [sentence]
      ⟨chunks', current', estimate_tokens (joinSp current')⟩
    else
      ⟨st.chunks, [sentence], sentence_tokens⟩
  else
    ⟨st.chunks, st.current_chunk ++ [sentence], st.current_tokens + sentence_tokens⟩

/-- Body of the paragraph loop of `chunk_document` (document_chunker.py lines
36-82), processing one paragraph. -/
def stepPara (max_tokens : Int) (st : ChunkState) (para : Str) : ChunkState :=
  let para_tokens := estimate_tokens para
  if (para_tokens : Int) > max_tokens then
    -- single paragraph exceeds max: split it by sentences
    (splitSent para).foldl (stepSentence max_tokens) st
  else if (st.current_tokens : Int) + para_tokens > max_tokens then
    if st.current_chunk ≠ [] then
      let chunks' := closeChunk st.chunks st.current_chunk
      -- keep the last paragraph for overlap
      let overlap_text := match st.current_chunk.getLast? with
        | some l => l
        | none => []
      let current' := if overlap_text ≠ [] then [overlap_text, para] else [para]
      ⟨chunks', current', estimate_tokens (joinSp current')⟩
    else
      ⟨st.chunks, [para], para_tokens⟩
  else
    ⟨st.chunks, st.current_chunk ++ [para], st.current_tokens + para_tokens⟩

/-- The paragraph list of `chunk_document`:
`[p.strip() for p in text.split('\n\n') if p.strip()]`. -/
def paragraphs (text : Str) : List Str :=
  ((splitNN text).map pyStrip).filter (fun p => p ≠ [])

/-- `DocumentChunker.chunk_document(text, max_tokens)` (document_chunker.py
lines 16-102).  The `overlap` parameter of the source never enters the token
arithmetic and is dropped.  The trailing `total_chunks` retrofit loop is the
final `map`. -/
def chunk_document (text : Str) (max_tokens : Int) : List Chunk :=
  let st := (paragraphs text).foldl (stepPara max_tokens) ⟨[], [], 0⟩
  let chunks :=
    if st.current_chunk ≠ [] then closeChunk st.chunks st.current_chunk else st.chunks
  chunks.map (fun c => { c with total_chunks := chunks.length })

example : splitNN "a\n\n\nb".data = ["a".data, "\nb".data] := by decide
example : splitSent "Hi. Bye?  ok".data = ["Hi.".data, "Bye?".data, "ok".data] := by decide
example : splitSent "a.. b".data = ["a..".data, "b".data] := by decide
example : splitSent "a. ".data = ["a.".data, [] ] := by decide
example : paragraphs " a \n\n\n b".data = ["a".data, "b".data] := by decide
example : chunk_document "a\n\nb".data 4000 = [⟨"a b".data, 0, 1, 1⟩] := by decide
example : chunk_document "".data 4000 = [] := by decide
example : chunk_document "aa aa aa aa aa aa".data 2 =
    [⟨"aa aa aa aa aa aa".data, 4, 1, 1⟩] := by decide

/-- Total length of a list of strings. -/
def sumLens (l : List Str) : Nat :=
  (l.map List.length).sum

/- ------------------------------------------------------------------ -/
/- Lemmas about the chunker                                            -/
/- ------------------------------------------------------------------ -/

theorem consHead_sumLens (c : Char) (ps : List Str) :
    sumLens (consHead c ps) = 1 + sumLens ps := by
  cases ps <;> simp [consHead, sumLens] <;> omega

theorem splitNN_sumLens (s : Str) : sumLens (splitNN s) ≤ s.length := by
  induction s using splitNN.induct with
  | case1 => simp [splitNN, sumLens]
  | case2 rest ih =>
      simp only [splitNN, sumLens, List.map_cons, List.sum_cons, List.length_cons,
        List.length_nil] at *
      omega
  | case3 c rest h ih =>
      rw [splitNN.eq_def]
      split
      · simp [sumLens]
      · rename_i heq
        obtain ⟨h1, h2⟩ := List.cons.inj heq
        exact absurd trivial (fun _ => h _ h1 h2)
      · rename_i heq
        obtain ⟨h1, h2⟩ := List.cons.inj heq
        subst h1
        subst h2
        rw [consHead_sumLens]
        simp only [List.length_cons]
        omega

theorem pyStrip_length_le (s : Str) : (pyStrip s).length ≤ s.length := by
  unfold pyStrip
  calc (((s.dropWhile pyIsSpace).reverse.dropWhile pyIsSpace).reverse).length
      = ((s.dropWhile pyIsSpace).reverse.dropWhile pyIsSpace).length := by
        simp
    _ ≤ (s.dropWhile pyIsSpace).reverse.length :=
        (List.dropWhile_sublist _).length_le
    _ = (s.dropWhile pyIsSpace).length := by simp
    _ ≤ s.length := (List.dropWhile_sublist _).length_le

theorem sumLens_filter_le (p : Str → Bool) (l : List Str) :
    sumLens (l.filter p) ≤ sumLens l := by
  induction l with
  | nil => simp [sumLens]
  | cons a t ih =>
      by_cases h : p a = true
      · simp [sumLens, List.filter_cons, h] at *
        omega
      · simp [sumLens, List.filter_cons, h] at *
        omega

theorem sumLens_map_pyStrip_le (l : List Str) :
    sumLens (l.map pyStrip) ≤ sumLens l := by
  induction l with
  | nil => simp [sumLens]
  | cons a t ih =>
      simp only [sumLens, List.map_cons, List.sum_cons] at *
      exact Nat.add_le_add (pyStrip_length_le a) ih

theorem paragraphs_sumLens_le (text : Str) :
    sumLens (paragraphs text) ≤ text.length := by
  unfold paragraphs
  calc sumLens ((((splitNN text).map pyStrip)).filter (fun p => p ≠ []))
      ≤ sumLens ((splitNN text).map pyStrip) := sumLens_filter_le _ _
    _ ≤ sumLens (splitNN text) := sumLens_map_pyStrip_le _
    _ ≤ text.length := splitNN_sumLens text

theorem tokSum_le_sumLens_div (l : List Str) :
    (l.map estimate_tokens).sum ≤ sumLens l / 4 := by
  induction l with
  | nil => simp [sumLens]
  | cons a t ih =>
      simp only [sumLens, List.map_cons, List.sum_cons, estimate_tokens] at *
      omega

theorem tokSum_paragraphs_le (text : Str) :
    ((paragraphs text).map estimate_tokens).sum ≤ estimate_tokens text := by
  have h1 := tokSum_le_sumLens_div (paragraphs text)
  have h2 := Nat.div_le_div_right (c := 4) (paragraphs_sumLens_le text)
  exact le_trans h1 (by simpa [estimate_tokens] using h2)

/-- While the running token budget is never exceeded, the paragraph loop of
`chunk_document` only appends: no chunk is emitted and the token counter stays
the exact sum of the accumulated paragraphs' estimates. -/
theorem chunk_loop_pure (max_tokens : Int) (ps : List Str) :
    ∀ cur : List Str,
      (((cur.map estimate_tokens).sum : Int) + ((ps.map estimate_tokens).sum : Int))
          ≤ max_tokens →
      ps.foldl (stepPara max_tokens) ⟨[], cur, (cur.map estimate_tokens).sum⟩ =
        ⟨[], cur ++ ps, (cur.map estimate_tokens).sum + (ps.map estimate_tokens).sum⟩ := by
  induction ps with
  | nil => intro cur h; simp
  | cons p rest ih =>
      intro cur h
      simp only [List.map_cons, List.sum_cons, Nat.cast_add] at h
      have hp : ¬ ((estimate_tokens p : Int) > max_tokens) := by omega
      have hcp : ¬ (((cur.map estimate_tokens).sum : Int) + (estimate_tokens p : Int)
          > max_tokens) := by omega
      have hstep : stepPara max_tokens ⟨[], cur, (cur.map estimate_tokens).sum⟩ p =
          ⟨[], cur ++ [p], (cur.map estimate_tokens).sum + estimate_tokens p⟩ := by
        rw [stepPara]
        simp only [if_neg hp, if_neg hcp]
      rw [List.foldl_cons, hstep]
      have hsum : ((cur ++ [p]).map estimate_tokens).sum =
          (cur.map estimate_tokens).sum + estimate_tokens p := by
        simp
      have h' : ((((cur ++ [p]).map estimate_tokens).sum : Int)
          + ((rest.map estimate_tokens).sum : Int)) ≤ max_tokens := by
        rw [hsum]
        omega
      have hrec := ih (cur ++ [p]) h'
      rw [hsum] at hrec
      rw [hrec]
      simp only [List.append_assoc, List.singleton_append, List.map_cons, List.sum_cons,
        ChunkState.mk.injEq, true_and]
      omega

/- ------------------------------------------------------------------ -/
/- Claims C1 and C2                                                    -/
/- ------------------------------------------------------------------ -/

/-- Claim C1, counterexample.  The claim states that every chunk produced by
`chunk_document` has `tokens ≤ max_tokens`, except chunks produced by a
word-level last-resort split of a single oversized token run (such chunks are
single whitespace-delimited words, hence contain no whitespace).  On the input
`"aa aa aa aa aa aa"` (17 characters, 4 estimated tokens) with
`max_tokens = 2`, the code emits one chunk of 4 > 2 tokens whose text contains
whitespace: the code never performs a word-level split — an oversized sentence
is emitted intact. -/
theorem c1_counterexample :
    ¬ (∀ c ∈ chunk_document "aa aa aa aa aa aa".data 2,
        (c.tokens : Int) ≤ 2 ∨ c.text.all (fun ch => !pyIsSpace ch) = true) := by
  decide

/-- Claim C1, amended: `chunk_document` performs no word-level split.  When
the whole input is a single paragraph (no blank-line separator) consisting of
a single sentence (no sentence break), the stripped text is returned as one
intact chunk whatever `max_tokens` is — so a single sentence that alone
exceeds the budget yields a chunk whose estimated token count exceeds
`max_tokens`. -/
theorem c1_oversized_sentence_kept_intact (text : Str) (max_tokens : Int)
    (h1 : splitNN text = [text]) (h2 : pyStrip text ≠ [])
    (h3 : splitSent (pyStrip text) = [pyStrip text]) :
    chunk_document text max_tokens =
      [⟨pyStrip text, estimate_tokens (pyStrip text), 1, 1⟩] := by
  have hps : paragraphs text = [pyStrip text] := by
    simp [paragraphs, h1, h2]
  have hjoin : joinSp [pyStrip text] = pyStrip text := by
    simp [joinSp, List.intercalate]
  unfold chunk_document
  rw [hps]
  by_cases hc : (estimate_tokens (pyStrip text) : Int) > max_tokens
  · have hone : stepPara max_tokens ⟨[], [], 0⟩ (pyStrip text) =
        ⟨[], [pyStrip text], estimate_tokens (pyStrip text)⟩ := by
      rw [stepPara]
      rw [if_pos hc, h3]
      simp only [List.foldl_cons, List.foldl_nil]
      rw [stepSentence]
      simp only [Nat.cast_zero, zero_add]
      rw [if_pos hc]
      simp
    simp only [List.foldl_cons, List.foldl_nil, hone]
    simp [closeChunk, hjoin, h2]
  · have hone : stepPara max_tokens ⟨[], [], 0⟩ (pyStrip text) =
        ⟨[], [pyStrip text], 0 + estimate_tokens (pyStrip text)⟩ := by
      rw [stepPara]
      rw [if_neg hc]
      have hc' : ¬ (((0 : Nat) : Int) + (estimate_tokens (pyStrip text) : Int)
          > max_tokens) := by omega
      rw [if_neg hc']
      simp
    simp only [List.foldl_cons, List.foldl_nil, hone]
    simp [closeChunk, hjoin, h2]

/-- Claim C1, witness for the amended theorem: on `"aa aa aa aa aa aa"` with
`max_tokens = 2` the hypotheses hold, exactly one intact chunk is produced,
and its estimated token count (4) exceeds the budget. -/
theorem c1_oversized_sentence_kept_intact_witness :
    splitNN "aa aa aa aa aa aa".data = ["aa aa aa aa aa aa".data] ∧
    pyStrip "aa aa aa aa aa aa".data ≠ [] ∧
    splitSent (pyStrip "aa aa aa aa aa aa".data) = [pyStrip "aa aa aa aa aa aa".data] ∧
    chunk_document "aa aa aa aa aa aa".data 2 =
      [⟨pyStrip "aa aa aa aa aa aa".data,
        estimate_tokens (pyStrip "aa aa aa aa aa aa".data), 1, 1⟩] ∧
    (2 : Int) < (estimate_tokens (pyStrip "aa aa aa aa aa aa".data) : Int) :=
  ⟨by decide, by decide, by decide,
    c1_oversized_sentence_kept_intact "aa aa aa aa aa aa".data 2
      (by decide) (by decide) (by decide),
    by decide⟩

/-- Claim C2, counterexample.  The claim states that whenever
`estimate_tokens text ≤ max_tokens`, `chunk_document` returns exactly one
chunk containing the original text unchanged.  The empty input is within any
non-negative budget yet produces zero chunks, and `"a\n\nb"` is within budget
yet its single chunk's text is the space-join `"a b"`, not the original. -/
theorem c2_counterexample :
    ((estimate_tokens "".data : Int) ≤ 4000 ∧ chunk_document "".data 4000 = []) ∧
    ((estimate_tokens "a\n\nb".data : Int) ≤ 4000 ∧
      (chunk_document "a\n\nb".data 4000).map Chunk.text = ["a b".data] ∧
      "a b".data ≠ "a\n\nb".data) := by
  decide

/-- Claim C2, amended: if `estimate_tokens text ≤ max_tokens` then
`chunk_document` returns at most one chunk — none when the text has no
nonempty paragraph, otherwise exactly one whose text is the space-join of the
stripped blank-line-separated paragraphs (this equals the original text
exactly when the original coincides with that join, e.g. a single
already-stripped paragraph). -/
theorem c2_single_chunk_when_within_budget (text : Str) (max_tokens : Int)
    (h : (estimate_tokens text : Int) ≤ max_tokens) :
    chunk_document text max_tokens =
      if paragraphs text = [] then []
      else [⟨joinSp (paragraphs text), estimate_tokens (joinSp (paragraphs text)), 1, 1⟩] := by
  have htok : (((paragraphs text).map estimate_tokens).sum : Int) ≤ max_tokens := by
    have := tokSum_paragraphs_le text
    omega
  have hloop := chunk_loop_pure max_tokens (paragraphs text) []
  simp only [List.map_nil, List.sum_nil, Nat.cast_zero, zero_add, List.nil_append] at hloop
  have hst := hloop htok
  unfold chunk_document
  rw [hst]
  by_cases hps : paragraphs text = []
  · simp [hps]
  · rw [if_neg hps]
    simp only [ne_eq, hps, not_false_eq_true, if_true, closeChunk]
    simp

/-- Claim C2, witness: a two-paragraph text within budget yields exactly the
single space-joined chunk. -/
theorem c2_single_chunk_when_within_budget_witness :
    (estimate_tokens "First part.\n\nSecond part.".data : Int) ≤ 4000 ∧
    chunk_document "First part.\n\nSecond part.".data 4000 =
      (if paragraphs "First part.\n\nSecond part.".data = [] then []
       else [⟨joinSp (paragraphs "First part.\n\nSecond part.".data),
              estimate_tokens (joinSp (paragraphs "First part.\n\nSecond part.".data)), 1, 1⟩]) :=
  ⟨by decide, c2_single_chunk_when_within_budget "First part.\n\nSecond part.".data 4000 (by decide)⟩

/- ------------------------------------------------------------------ -/
/- rag_analyzer.py: findings, score, severity, recovery                -/
/- ------------------------------------------------------------------ -/

/-- An entry of an `illegal_clauses` list as produced by the chunk analyzer
(rag_analyzer.py prompt schema).  Fields are optional because the Python
side reads them with `dict.get` and a default. -/
structure IllegalClause where
  clause : Option Str := none
  violation : Option Str := none
  explanation : Option Str := none
  severity : Option Str := none
  potential_recovery : Option Str := none
  recovery_calculation : Option Str := none
deriving DecidableEq, Repr

/-- An entry of a `risky_terms` list. -/
structure RiskyTerm where
  term : Option Str := none
  risk : Option Str := none
  explanation : Option Str := none
  severity : Option Str := none
deriving DecidableEq, Repr

/-- An entry of a `favorable_clauses` list. -/
structure FavorableClause where
  clause : Option Str := none
  benefit : Option Str := none
  relevant_law : Option Str := none
deriving DecidableEq, Repr

/-- An entry of a `concerns` list. -/
structure Concern where
  issue : Str
  recommendation : Str
deriving DecidableEq, Repr

/-- The per-chunk analysis record returned by `RAGAnalyzer.analyze_chunk`. -/
structure ChunkAnalysis where
  illegal_clauses : List IllegalClause := []
  risky_terms : List RiskyTerm := []
  favorable_clauses : List FavorableClause := []
  concerns : List Concern := []
deriving DecidableEq, Repr

/-- The power-imbalance score of `RAGAnalyzer.consolidate_analysis`
(rag_analyzer.py lines 354-355):
`min(100, illegal*20 + risky*10 - favorable*5)` then `max(0, ...)`. -/
def power_imbalance_score (illegal_count risky_count favorable_count : Nat) : Int :=
  max 0 (min 100 ((illegal_count : Int) * 20 + (risky_count : Int) * 10
    - (favorable_count : Int) * 5))

/-- Clamp of a value to an interval, written after the spec's
`clamp(0,100, ...)` formula (spec section 4.5); used to compare the code's
score against the spec's description. -/
def specClamp (lo hi x : Int) : Int :=
  max lo (min hi x)

/-- `RAGAnalyzer._get_severity_level` (rag_analyzer.py lines 611-620). -/
def get_severity_level (power_score : Int) (illegal_count : Nat) : String :=
  if illegal_count ≥ 3 ∨ power_score ≥ 60 then "CRITICAL"
  else if illegal_count ≥ 1 ∨ power_score ≥ 40 then "HIGH"
  else if power_score ≥ 20 then "MEDIUM"
  else "LOW"

/-- Severity tier as worded by the spec (section 4.5): by order of precedence
`illegal_count≥3 or score≥60 → CRITICAL`; else `illegal_count≥1 or score≥40 →
HIGH`; else `score≥20 → MEDIUM`; else `LOW`.  Used to compare the code's
tiering against the spec's description. -/
def specSeverityTier (illegal_count : Nat) (score : Int) : String :=
  if illegal_count ≥ 3 ∨ score ≥ 60 then "CRITICAL"
  else if illegal_count ≥ 1 ∨ score ≥ 40 then "HIGH"
  else if score ≥ 20 then "MEDIUM"
  else "LOW"

/-- Numeric value of a digit string. -/
def natFromDigits (ds : Str) : Nat :=
  ds.foldl (fun n c => 10 * n + (c.toNat - '0'.toNat)) 0

/-- The `(?:,?\d{3})*` tail of the money regex
`\$?(\d{1,3}(?:,?\d{3})*)` (rag_analyzer.py lines 366 and 585), starting
right after the `\d{1,3}` group.  Returns the digits it matches (commas are
consumed but not returned, mirroring the later `replace(',', '')`).  Each
greedy repetition takes an optional comma followed by exactly three digits;
the star stops at the first position where no repetition matches. -/
def starDigits : Str → Str
  | ',' :: a :: b :: c :: r =>
    if a.isDigit && b.isDigit && c.isDigit then a :: b :: c :: starDigits r else []
  | ',' :: _ => []
  | a :: b :: c :: r =>
    if a.isDigit && b.isDigit && c.isDigit then a :: b :: c :: starDigits r else []
  | _ => []

/-- Attempt of the money regex `\$?(\d{1,3}(?:,?\d{3})*)` at one position:
an optional dollar sign, one to three digits (greedy), then the starred tail.
Returns the parsed integer value of group 1 with commas removed, i.e. the
Python `int(match.group(1).replace(',', ''))`. -/
def matchAmountAt (s : Str) : Option Nat :=
  let s1 := match s with
    | '$' :: r => r
    | _ => s
  let d1 := (s1.takeWhile Char.isDigit).take 3
  if d1 = [] then none
  else some (natFromDigits (d1 ++ starDigits (s1.drop d1.length)))

/-- Python `re.search(r'\$?(\d{1,3}(?:,?\d{3})*)', s)` followed by
`int(group(1).replace(',', ''))`: try the pattern at each position from the
left, returning the value at the first position where it matches. -/
def moneySearch : Str → Option Nat
  | [] => none
  | c :: t =>
    match matchAmountAt (c :: t) with
    | some n => some n
    | none => moneySearch t

/-- Python `str.lower()` restricted to ASCII letters (the keywords compared
against in the source are ASCII). -/
def pyLower (s : Str) : Str :=
  s.map Char.toLower

/-- Python substring containment `needle in hay`. -/
def containsSub : Str → Str → Bool
  | needle, [] => needle.isEmpty
  | needle, c :: t => needle.isPrefixOf (c :: t) || containsSub needle t

/-- Python `a or b` on strings: `b` if `a` is empty, else `a`. -/
def pyOrStr (a b : Str) : Str :=
  if a = [] then b else a

/-- The fixed fallback amount of `consolidate_analysis` (rag_analyzer.py
lines 376-382): keyword match on the lower-cased violation text. -/
def fallbackRecoveryAmount (f : IllegalClause) : Nat :=
  if containsSub "security deposit".data (pyLower (f.violation.getD [])) then 5000
  else if containsSub "93a".data (pyLower (f.violation.getD [])) then 2500
  else 1000

/-- The recovery amount `consolidate_analysis` assigns to one illegal finding
(rag_analyzer.py lines 362-382): the first money-regex match in its
`potential_recovery` string, else the keyword fallback. -/
def recoveryAmountOf (f : IllegalClause) : Nat :=
  match moneySearch (f.potential_recovery.getD []) with
  | some amount => amount
  | none => fallbackRecoveryAmount f

/-- One entry of `recovery_breakdown`. -/
structure RecoveryEntry where
  violation : Str
  amount : Nat
  calculation : Str
deriving DecidableEq, Repr

/-- The `recovery_breakdown` entry `consolidate_analysis` appends for one
illegal finding (rag_analyzer.py lines 370-374 and 384-388). -/
def recoveryEntryOf (f : IllegalClause) : RecoveryEntry :=
  match moneySearch (f.potential_recovery.getD []) with
  | some amount =>
    ⟨f.violation.getD "Unknown".data, amount, f.recovery_calculation.getD []⟩
  | none =>
    ⟨f.violation.getD "Unknown".data, fallbackRecoveryAmount f,
      pyOrStr (f.recovery_calculation.getD []) "Estimated based on violation type".data⟩

/-- The recovery loop of `consolidate_analysis` (rag_analyzer.py lines
358-388): running total `potential_recovery` and accumulated
`recovery_breakdown` over all illegal findings. -/
def consolidateRecovery (all_illegal : List IllegalClause) : Nat × List RecoveryEntry :=
  all_illegal.foldl
    (fun acc f => (acc.1 + recoveryAmountOf f, acc.2 ++ [recoveryEntryOf f]))
    (0, [])

example : moneySearch "$5000".data = some 500 := by decide
example : moneySearch "up to $1,500 in damages".data = some 1500 := by decide
example : moneySearch "triple damages: 12,345".data = some 12345 := by decide
example : moneySearch "no digits here".data = none := by decide
example : moneySearch "$123456".data = some 123456 := by decide

/- ------------------------------------------------------------------ -/
/- Claims C3, C4, C5                                                   -/
/- ------------------------------------------------------------------ -/

/-- Claim C3: for all non-negative counts the power-imbalance score equals
`clamp(0,100, illegal*20 + risky*10 - favorable*5)`, and it is monotone:
one more illegal finding never decreases it, one more favorable finding never
increases it (risky/illegal counts held fixed respectively). -/
theorem c3_power_imbalance_clamp_monotone (i r f : Nat) :
    power_imbalance_score i r f =
      specClamp 0 100 ((i : Int) * 20 + (r : Int) * 10 - (f : Int) * 5) ∧
    power_imbalance_score i r f ≤ power_imbalance_score (i + 1) r f ∧
    power_imbalance_score i r (f + 1) ≤ power_imbalance_score i r f := by
  refine ⟨rfl, ?_, ?_⟩ <;>
    · unfold power_imbalance_score
      push_cast
      omega

/-- Claim C4: the severity tier follows the spec's precedence order
(CRITICAL if `illegal ≥ 3` or `score ≥ 60`; else HIGH if `illegal ≥ 1` or
`score ≥ 40`; else MEDIUM if `score ≥ 20`; else LOW), and in particular
one illegal finding with no risky or favorable findings scores 20 and is
tiered HIGH through the `illegal_count ≥ 1` rule. -/
theorem c4_severity_tier_precedence (score : Int) (illegal_count : Nat) :
    get_severity_level score illegal_count = specSeverityTier illegal_count score ∧
    power_imbalance_score 1 0 0 = 20 ∧
    get_severity_level (power_imbalance_score 1 0 0) 1 = "HIGH" := by
  refine ⟨rfl, by decide, by decide⟩

/-- Accumulator form of the recovery loop. -/
theorem consolidateRecovery_go (il : List IllegalClause) :
    ∀ (t : Nat) (acc : List RecoveryEntry),
      il.foldl (fun acc f => (acc.1 + recoveryAmountOf f, acc.2 ++ [recoveryEntryOf f])) (t, acc)
        = (t + (il.map recoveryAmountOf).sum, acc ++ il.map recoveryEntryOf) := by
  induction il with
  | nil => intro t acc; simp
  | cons f rest ih =>
      intro t acc
      simp only [List.foldl_cons, List.map_cons, List.sum_cons]
      rw [ih]
      simp only [Prod.mk.injEq]
      constructor
      · omega
      · simp

/-- Claim C5: the consolidated potential recovery is the sum, over all
illegal findings, of the per-finding amount (first money-regex match of the
finding's `potential_recovery` string, else the keyword fallback 5000 /
2500 / 1000 on the violation text), and `recovery_breakdown` keeps exactly
one `(violation, amount, calculation)` entry per illegal finding, in order. -/
theorem c5_recovery_sum_and_breakdown (all_illegal : List IllegalClause) :
    consolidateRecovery all_illegal =
      ((all_illegal.map recoveryAmountOf).sum, all_illegal.map recoveryEntryOf) ∧
    (consolidateRecovery all_illegal).2.length = all_illegal.length := by
  have hgo := consolidateRecovery_go all_illegal 0 []
  unfold consolidateRecovery
  rw [hgo]
  simp

/- ------------------------------------------------------------------ -/
/- analyze_chunk response handling (claim C6)                          -/
/- ------------------------------------------------------------------ -/

/-- Worker for `pySplit`: split `s` at each non-overlapping, leftmost
occurrence of the (nonempty) separator.  The fuel argument only makes the
recursion structural; every step consumes at least one character, so any fuel
of at least `s.length` gives the fuel-independent result. -/
def splitOnSepGo (sep : Str) : Nat → Str → List Str
  | 0, s => [s]
  | _ + 1, [] => [[]]
  | fuel + 1, c :: rest =>
    if sep.isPrefixOf (c :: rest) then
      [] :: splitOnSepGo sep fuel ((c :: rest).drop sep.length)
    else
      consHead c (splitOnSepGo sep fuel rest)

/-- Python `s.split(sep)` for a nonempty separator `sep`. -/
def pySplit (sep s : Str) : List Str :=
  splitOnSepGo sep s.length s

/-- Markdown code-fence stripping of `RAGAnalyzer.analyze_chunk`
(rag_analyzer.py lines 301-305): if a ` ```json ` fence is present, take what
stands between it and the next ` ``` ` and strip it; else likewise for a bare
` ``` ` fence; else leave the text unchanged. -/
def stripFences (t : Str) : Str :=
  if containsSub "```json".data t then
    pyStrip ((pySplit "```".data ((pySplit "```json".data t).getD 1 [])).getD 0 [])
  else if containsSub "```".data t then
    pyStrip ((pySplit "```".data ((pySplit "```".data t).getD 1 [])).getD 0 [])
  else t

/-- The fallback analysis substituted on a JSON parse failure
(rag_analyzer.py lines 311-316). -/
def parseFailureFallback : ChunkAnalysis :=
  ⟨[], [], [],
    [⟨"Analysis parsing error".data, "Manual review recommended".data⟩]⟩

/-- Response handling of `RAGAnalyzer.analyze_chunk` (rag_analyzer.py lines
297-316): strip the response, strip markdown code fences, then attempt a JSON
parse (`json.loads` is abstracted as the `parseJson` argument, `none`
standing for a raised `JSONDecodeError`); on failure substitute the fixed
fallback instead of raising. -/
def analyze_chunk_response (parseJson : Str → Option ChunkAnalysis) (raw : Str) :
    ChunkAnalysis :=
  match parseJson (stripFences (pyStrip raw)) with
  | some analysis => analysis
  | none => parseFailureFallback

example : stripFences "```json\nhello\n```".data = "hello".data := by decide
example : stripFences "x ```code``` y".data = "code".data := by decide
example : stripFences "plain".data = "plain".data := by decide

/-- Claim C6: for every response whose JSON parse still fails after code-fence
stripping, `analyze_chunk` returns (rather than raises) a result with empty
`illegal_clauses`, `risky_terms` and `favorable_clauses` and exactly one
concern recommending manual review. -/
theorem c6_parse_failure_fallback (parseJson : Str → Option ChunkAnalysis) (raw : Str)
    (h : parseJson (stripFences (pyStrip raw)) = none) :
    analyze_chunk_response parseJson raw = parseFailureFallback ∧
    (analyze_chunk_response parseJson raw).illegal_clauses = [] ∧
    (analyze_chunk_response parseJson raw).risky_terms = [] ∧
    (analyze_chunk_response parseJson raw).favorable_clauses = [] ∧
    (analyze_chunk_response parseJson raw).concerns =
      [⟨"Analysis parsing error".data, "Manual review recommended".data⟩] := by
  unfold analyze_chunk_response
  rw [h]
  exact ⟨rfl, rfl, rfl, rfl, rfl⟩

/-- Claim C6, witness: a parser that always fails, on a fenced non-JSON
response. -/
theorem c6_parse_failure_fallback_witness :
    (fun _ : Str => (none : Option ChunkAnalysis))
        (stripFences (pyStrip "```json\nnot json\n```".data)) = none ∧
    analyze_chunk_response (fun _ => none) "```json\nnot json\n```".data
      = parseFailureFallback :=
  ⟨rfl, (c6_parse_failure_fallback (fun _ => none) "```json\nnot json\n```".data rfl).1⟩

/- ------------------------------------------------------------------ -/
/- PIIEncryption (claim C7)                                            -/
/- ------------------------------------------------------------------ -/

/-- The key store of `PIIEncryption` (`self.keys`, a JSON object mapping
document ids to symmetric keys).  Persisting to the key file is modelled as
the updated state being returned. -/
structure PIIEncState where
  keys : List (String × String)
deriving DecidableEq, Repr

/-- `PIIEncryption.generate_key` (pii_redaction.py lines 242-247):
`Fernet.generate_key()` is abstracted as the `freshKey` argument; the key is
stored under the document id (dict assignment; the id is absent whenever this
is called, so consing is an insert). -/
def generate_key (st : PIIEncState) (file_id : String) (freshKey : String) : PIIEncState :=
  ⟨(file_id, freshKey) :: st.keys⟩

/-- `PIIEncryption.encrypt_pii_mapping` (pii_redaction.py lines 249-271).
`json.dumps` is abstracted as `dumps`, Fernet encryption under a key as
`fernetEncrypt`.  If the id has no stored key, one is generated and persisted
first; `(self.keys[file_id]` after the conditional insert is modelled by
`(lookup ...).getD freshKey`, the lookup being total by construction). -/
def encrypt_pii_mapping {α : Type} (fernetEncrypt : String → String → String)
    (dumps : α → String) (freshKey : String) (st : PIIEncState)
    (file_id : String) (pii_mapping : α) : String × PIIEncState :=
  let st' := if (st.keys.lookup file_id).isNone then generate_key st file_id freshKey else st
  let key := (st'.keys.lookup file_id).getD freshKey
  (fernetEncrypt key (dumps pii_mapping), st')

/-- `PIIEncryption.decrypt_pii_mapping` (pii_redaction.py lines 273-294).
An id with no stored key raises `ValueError` (modelled as `Except.error`);
Fernet decryption plus `json.loads` is abstracted as `fernetDecrypt`, `none`
standing for an invalid-token / parse exception. -/
def decrypt_pii_mapping {β : Type} (fernetDecrypt : String → String → Option β)
    (st : PIIEncState) (file_id : String) (encrypted_data : String) : Except String β :=
  match st.keys.lookup file_id with
  | none => .error ("No encryption key found for file_id: " ++ file_id)
  | some key =>
    match fernetDecrypt key encrypted_data with
    | some pii_mapping => .ok pii_mapping
    | none => .error "invalid token"

/-- Claim C7: for a document id with no stored key, decryption is a hard
error returning no data, while encryption of the same unkeyed id succeeds by
generating and persisting a key for that id and encrypting under it. -/
theorem c7_unkeyed_decrypt_errors_encrypt_generates {α β : Type}
    (fernetEncrypt : String → String → String) (dumps : α → String)
    (fernetDecrypt : String → String → Option β)
    (freshKey : String) (st : PIIEncState) (file_id : String)
    (encrypted_data : String) (pii_mapping : α)
    (h : st.keys.lookup file_id = none) :
    decrypt_pii_mapping fernetDecrypt st file_id encrypted_data =
      .error ("No encryption key found for file_id: " ++ file_id) ∧
    (encrypt_pii_mapping fernetEncrypt dumps freshKey st file_id pii_mapping).1 =
      fernetEncrypt freshKey (dumps pii_mapping) ∧
    ((encrypt_pii_mapping fernetEncrypt dumps freshKey st file_id pii_mapping).2).keys.lookup
      file_id = some freshKey := by
  have hlook : ((file_id, freshKey) :: st.keys).lookup file_id = some freshKey := by
    simp [List.lookup]
  refine ⟨?_, ?_, ?_⟩
  · unfold decrypt_pii_mapping
    rw [h]
  · unfold encrypt_pii_mapping generate_key
    rw [h]
    simp [hlook]
  · unfold encrypt_pii_mapping generate_key
    rw [h]
    simp [hlook]

/-- Claim C7, witness: an empty key store. -/
theorem c7_unkeyed_decrypt_errors_encrypt_generates_witness :
    (PIIEncState.mk []).keys.lookup "doc-1" = none ∧
    decrypt_pii_mapping (fun _ _ => (none : Option String)) ⟨[]⟩ "doc-1" "blob" =
      .error ("No encryption key found for file_id: " ++ "doc-1") ∧
    (encrypt_pii_mapping (fun k d => k ++ d) (fun m : String => m) "KEY" ⟨[]⟩
        "doc-1" "mapping").1 = "KEY" ++ "mapping" ∧
    ((encrypt_pii_mapping (fun k d => k ++ d) (fun m : String => m) "KEY" ⟨[]⟩
        "doc-1" "mapping").2).keys.lookup "doc-1" = some "KEY" := by
  refine ⟨rfl, ?_⟩
  have hmain := c7_unkeyed_decrypt_errors_encrypt_generates
    (fun k d => k ++ d) (fun m : String => m) (fun _ _ => (none : Option String))
    "KEY" ⟨[]⟩ "doc-1" "blob" "mapping" rfl
  exact ⟨hmain.1, hmain.2.1, hmain.2.2⟩

/- ------------------------------------------------------------------ -/
/- pdf_coordinate_extractor.py                                         -/
/- ------------------------------------------------------------------ -/

/-- Python `round(x, 2)`: round to the nearest multiple of 1/100. -/
def round2 (x : ℚ) : ℚ :=
  ((round (x * 100) : ℤ) : ℚ) / 100

/-- A word box as returned by `page.extract_words` (pdfplumber coordinates:
origin top-left, `top < bottom`, Y increasing downward). -/
structure Word where
  text : Str
  x0 : ℚ
  x1 : ℚ
  top : ℚ
  bottom : ℚ
deriving DecidableEq, Repr

/-- An output rectangle (PDF.js / react-pdf-highlighter coordinates: origin
bottom-left, Y increasing upward). -/
structure Rect where
  x1 : ℚ
  y1 : ℚ
  x2 : ℚ
  y2 : ℚ
  width : ℚ
  height : ℚ
  pageNumber : Nat
deriving DecidableEq, Repr

/-- A position dictionary: bounding rectangle, per-line rectangles and page
dimensions. -/
structure Position where
  boundingRect : Rect
  rects : List Rect
  pageHeight : ℚ
  pageWidth : ℚ
deriving DecidableEq, Repr

/-- Worker for `collapseWs`: the flag records being inside a whitespace run
already replaced by a single space. -/
def collapseWsGo : Bool → Str → Str
  | _, [] => []
  | inRun, c :: rest =>
    if pyIsSpace c then
      if inRun then collapseWsGo true rest else ' ' :: collapseWsGo true rest
    else c :: collapseWsGo false rest

/-- Python `re.sub(r'\s+', ' ', text)`: replace each maximal whitespace run
by a single space. -/
def collapseWs (s : Str) : Str :=
  collapseWsGo false s

/-- `PDFCoordinateExtractor._clean_text` (pdf_coordinate_extractor.py lines
287-292): collapse whitespace, strip, lowercase. -/
def cleanText (t : Str) : Str :=
  pyLower (pyStrip (collapseWs t))

/-- Worker for `pySplitWs`: the flag records whether the preceding character
belongs to a word whose remaining characters head the result. -/
def pySplitWsGo : Bool → Str → List Str
  | inWord, [] => if inWord then [[]] else []
  | inWord, c :: rest =>
    if pyIsSpace c then
      if inWord then [] :: pySplitWsGo false rest else pySplitWsGo false rest
    else consHead c (pySplitWsGo true rest)

/-- Python `text.split()` with no arguments: split on whitespace runs,
discarding empty pieces. -/
def pySplitWs (s : Str) : List Str :=
  pySplitWsGo false s

/-- `PDFCoordinateExtractor._create_rect_from_words` (pdf_coordinate_extractor.py
lines 197-226): union box of the words, Y-flipped (`y = page_height - y_pdf`)
and rounded to two decimals.  The source takes the `min`/`max` over its
(always nonempty) word list; the empty case is unreachable and returns a
zero rectangle. -/
def createRectFromWords (words : List Word) (page_num : Nat) (page_height : ℚ) : Rect :=
  match words with
  | [] => ⟨0, 0, 0, 0, 0, 0, page_num⟩
  | w :: ws =>
    let x0 := ws.foldl (fun a u => min a u.x0) w.x0
    let x1 := ws.foldl (fun a u => max a u.x1) w.x1
    let y0_pdf := ws.foldl (fun a u => min a u.top) w.top
    let y1_pdf := ws.foldl (fun a u => max a u.bottom) w.bottom
    let y0 := round2 (page_height - y1_pdf)
    let y1 := round2 (page_height - y0_pdf)
    ⟨round2 x0, y0, round2 x1, y1, round2 (x1 - x0), round2 (y1 - y0), page_num⟩

/-- `PDFCoordinateExtractor._create_default_coordinates`
(pdf_coordinate_extractor.py lines 228-285): the fixed rectangle x 72..540,
pdfplumber band 200..250 from the top, Y-flipped with the real page height
when one is available (Python float truthiness: height 0 counts as absent),
else with the assumed US-Letter 792x612 dimensions. -/
def createDefaultCoordinates (page_num : Nat) (page_height page_width : Option ℚ) : Position :=
  let hOpt := match page_height with
    | some h => if h = 0 then none else some h
    | none => none
  match hOpt with
  | some h =>
    let y1 := round2 (h - 250)
    let y2 := round2 (h - 200)
    let w := match page_width with
      | some w => if w = 0 then 612 else w
      | none => 612
    ⟨⟨72, y1, 540, y2, 540 - 72, y2 - y1, page_num⟩,
      [⟨72, y1, 540, y2, 540 - 72, y2 - y1, page_num⟩], h, w⟩
  | none =>
    let y1 := round2 ((792 : ℚ) - 250)
    let y2 := round2 ((792 : ℚ) - 200)
    ⟨⟨72, y1, 540, y2, 540 - 72, y2 - y1, page_num⟩,
      [⟨72, y1, 540, y2, 540 - 72, y2 - y1, page_num⟩], 792, 612⟩

/-- The tail of `_extract_coordinates` (pdf_coordinate_extractor.py lines
129-187) building the position from the matched word boxes: bounding box by
`min`/`max` over the words, Y-flip, and per-line rectangles grouping words
whose `top` differs from the previous word's by less than 5 units.  An empty
match falls back to the default coordinates (line 131-132). -/
def buildPositionFromWords (word_positions : List Word) (page_num : Nat)
    (page_height page_width : ℚ) : Position :=
  match word_positions with
  | [] => createDefaultCoordinates page_num (some page_height) (some page_width)
  | w :: ws =>
    let x0 := ws.foldl (fun a u => min a u.x0) w.x0
    let x1 := ws.foldl (fun a u => max a u.x1) w.x1
    let y0_pdf := ws.foldl (fun a u => min a u.top) w.top
    let y1_pdf := ws.foldl (fun a u => max a u.bottom) w.bottom
    let y0 := round2 (page_height - y1_pdf)
    let y1 := round2 (page_height - y0_pdf)
    let grouped := (w :: ws).foldl
      (fun (acc : List Rect × List Word × Option ℚ) word =>
        match acc.2.2 with
        | none => (acc.1, acc.2.1 ++ [word], some word.top)
        | some last_y =>
          if |word.top - last_y| < 5 then (acc.1, acc.2.1 ++ [word], some word.top)
          else
            ((if acc.2.1 ≠ [] then
                acc.1 ++ [createRectFromWords acc.2.1 page_num page_height]
              else acc.1),
             [word], some word.top))
      ([], [], none)
    let rects := grouped.1 ++
      (if grouped.2.1 ≠ [] then [createRectFromWords grouped.2.1 page_num page_height] else [])
    let br : Rect := ⟨round2 x0, y0, round2 x1, y1, round2 (x1 - x0), round2 (y1 - y0), page_num⟩
    ⟨br, if rects ≠ [] then rects else [br], page_height, page_width⟩

/-- One extracted PDF page: its text (`page.extract_text()`, empty standing
for no text), its dimensions and its word boxes (`page.extract_words(...)`). -/
structure Page where
  text : Str
  height : ℚ
  width : ℚ
  words : List Word
deriving DecidableEq, Repr

/-- The inner for-else of the sliding window (pdf_coordinate_extractor.py
lines 110-113): the page word matches when some search word is a substring of
it or vice versa (both nonempty). -/
def wordMatches (clean_search_words : List Str) (word_text : Str) : Bool :=
  clean_search_words.any (fun sw =>
    !sw.isEmpty && !word_text.isEmpty && (containsSub sw word_text || containsSub word_text sw))

/-- The sliding-window loop of `_extract_coordinates`
(pdf_coordinate_extractor.py lines 101-129) with its post-loop final check:
accumulate the current run of matching words, keep the best run seen, break
early once the current run reaches `stopLen = min(len(search_words), 15)`. -/
def slidingMatch (clean_search_words : List Str) (stopLen : Nat) :
    List Word → List Word → List Word → List Word
  | [], current, best => if current.length > best.length then current else best
  | wd :: rest, current, best =>
    if wordMatches clean_search_words (cleanText wd.text) then
      if stopLen ≤ (current ++ [wd]).length then current ++ [wd]
      else slidingMatch clean_search_words stopLen rest (current ++ [wd]) best
    else
      if stopLen = 0 then []
      else slidingMatch clean_search_words stopLen rest []
        (if current.length > best.length then current else best)

/-- `PDFCoordinateExtractor._extract_coordinates` (pdf_coordinate_extractor.py
lines 74-195): no words on the page gives the default coordinates; otherwise
match the excerpt's first 30 words against the page's word boxes and build
the position from the matched boxes. -/
def extract_coordinates (page : Page) (text : Str) (page_num : Nat) : Position :=
  if page.words = [] then
    createDefaultCoordinates page_num (some page.height) (some page.width)
  else
    let search_words := (pySplitWs text).take 30
    let clean_search_words := (search_words.filter (fun sw => pyStrip sw ≠ [])).map cleanText
    let word_positions := slidingMatch clean_search_words
      (min clean_search_words.length 15) page.words [] []
    buildPositionFromWords word_positions page_num page.height page.width

/-- The snippet lengths tried by `find_text_coordinates`
(pdf_coordinate_extractor.py line 41). -/
def snippetLengths : List Nat := [200, 150, 100, 75, 50]

/-- The snippet loop of `find_text_coordinates` (pdf_coordinate_extractor.py
lines 53-64) on one page: for each snippet length in order, skip prefixes
shorter than 20 characters; on the first prefix that occurs in the page's
cleaned text, extract coordinates (which always yields a position). -/
def snippetLoop (clean_search clean_page : Str) (page : Page) (search_text : Str)
    (page_num : Nat) : List Nat → Option Position
  | [] => none
  | len :: ls =>
    if (clean_search.take len).length < 20 then
      snippetLoop clean_search clean_page page search_text page_num ls
    else if containsSub (clean_search.take len) clean_page then
      some (extract_coordinates page search_text page_num)
    else
      snippetLoop clean_search clean_page page search_text page_num ls

/-- The candidate pages of `find_text_coordinates`
(pdf_coordinate_extractor.py line 38): `[page_number] if page_number else
range(1, len(pages) + 1)` (0 is falsy in Python). -/
def pagesToSearch (numPages : Nat) (page_number : Option Nat) : List Nat :=
  match page_number with
  | some n => if n = 0 then List.range' 1 numPages else [n]
  | none => List.range' 1 numPages

/-- Python `page_number or 1` (pdf_coordinate_extractor.py line 68). -/
def fallbackPageNum (page_number : Option Nat) : Nat :=
  match page_number with
  | some n => if n = 0 then 1 else n
  | none => 1

/-- The no-match fallback of `find_text_coordinates`
(pdf_coordinate_extractor.py lines 66-72): default coordinates on the hinted
or first page, with that page's real dimensions when the page exists, else
with no dimensions (hence the assumed 612x792 US-Letter size).  The inner
`none` case is unreachable because `fallbackPageNum` is at least 1. -/
def defaultFallback (pages : List Page) (page_number : Option Nat) : Position :=
  let fbn := fallbackPageNum page_number
  if fbn ≤ pages.length then
    match pages.get? (fbn - 1) with
    | some p => createDefaultCoordinates fbn (some p.height) (some p.width)
    | none => createDefaultCoordinates fbn none none
  else
    createDefaultCoordinates fbn none none

/-- The page loop of `find_text_coordinates` (pdf_coordinate_extractor.py
lines 43-64): for each candidate page number in order, index into the page
list (an out-of-range index raises, modelled as `Except.error`), skip pages
with no text, and return the first snippet hit. -/
def findLoop (pages : List Page) (clean_search search_text : Str) :
    List Nat → Except String (Option Position)
  | [] => .ok none
  | n :: rest =>
    match pages.get? (n - 1) with
    | none => .error "IndexError: page index out of range"
    | some page =>
      if page.text = [] then findLoop pages clean_search search_text rest
      else
        match snippetLoop clean_search (cleanText page.text) page search_text n
            snippetLengths with
        | some pos => .ok (some pos)
        | none => findLoop pages clean_search search_text rest

/-- `PDFCoordinateExtractor.find_text_coordinates`
(pdf_coordinate_extractor.py lines 23-72). -/
def find_text_coordinates (pages : List Page) (search_text : Str)
    (page_number : Option Nat) : Except String Position :=
  match findLoop pages (cleanText search_text) search_text
      (pagesToSearch pages.length page_number) with
  | .error e => .error e
  | .ok (some pos) => .ok pos
  | .ok none => .ok (defaultFallback pages page_number)

example : cleanText "  Hello   WORLD \n x ".data = "hello world x".data := by decide
example : pySplitWs " ab  cd ".data = ["ab".data, "cd".data] := by decide
example : round2 ((7925 : ℚ) / 10 - 250) = 5425 / 10 := by
  norm_num [round2, round_eq]

/-- A concrete one-page document used by witnesses. -/
def samplePage : Page :=
  ⟨"lease agreement page one".data, 700, 500, []⟩

/- ------------------------------------------------------------------ -/
/- Claim C8                                                            -/
/- ------------------------------------------------------------------ -/

/-- Claim C8: for a matched word box with extraction-library coordinates
`top` and `bottom` on a page of height `H`, the output rectangles (the
per-line rectangle built from that box, and the bounding rectangle and rect
list of the position built from it) satisfy `y1 = H - bottom` and
`y2 = H - top` exactly, up to rounding to two decimal places. -/
theorem c8_coordinate_round_trip (w : Word) (page_num : Nat) (ph pw : ℚ) :
    (createRectFromWords [w] page_num ph).y1 = round2 (ph - w.bottom) ∧
    (createRectFromWords [w] page_num ph).y2 = round2 (ph - w.top) ∧
    (buildPositionFromWords [w] page_num ph pw).boundingRect.y1 = round2 (ph - w.bottom) ∧
    (buildPositionFromWords [w] page_num ph pw).boundingRect.y2 = round2 (ph - w.top) ∧
    (buildPositionFromWords [w] page_num ph pw).rects = [createRectFromWords [w] page_num ph] :=
  ⟨rfl, rfl, rfl, rfl, rfl⟩

/- ------------------------------------------------------------------ -/
/- Claim C9                                                            -/
/- ------------------------------------------------------------------ -/

/-- If every snippet length either yields a prefix shorter than 20 characters
(skipped) or a prefix that does not occur in the page text, the snippet loop
finds nothing. -/
theorem snippetLoop_eq_none (clean_search clean_page : Str) (page : Page)
    (search_text : Str) (page_num : Nat) (ls : List Nat)
    (h : ∀ len ∈ ls, (clean_search.take len).length < 20 ∨
      containsSub (clean_search.take len) clean_page = false) :
    snippetLoop clean_search clean_page page search_text page_num ls = none := by
  induction ls with
  | nil => rfl
  | cons len ls ih =>
      have hl := h len (List.mem_cons_self len ls)
      have hrest : ∀ l ∈ ls, (clean_search.take l).length < 20 ∨
          containsSub (clean_search.take l) clean_page = false :=
        fun l hm => h l (List.mem_cons_of_mem _ hm)
      by_cases h20 : (clean_search.take len).length < 20
      · simp only [snippetLoop, if_pos h20]
        exact ih hrest
      · have hinf : containsSub (clean_search.take len) clean_page = false := by
          rcases hl with a | b
          · exact absurd a h20
          · exact b
        simp only [snippetLoop, if_neg h20, hinf, Bool.false_eq_true, if_false]
        exact ih hrest

/-- If every candidate page index is in range and no snippet of the cleaned
search text is found on any candidate page, the page loop reports
"not found". -/
theorem findLoop_eq_none (pages : List Page) (clean_search search_text : Str)
    (l : List Nat)
    (hidx : ∀ n ∈ l, n - 1 < pages.length)
    (h : ∀ n ∈ l, ∀ page ∈ (pages.get? (n - 1)).toList, ∀ len ∈ snippetLengths,
      (clean_search.take len).length < 20 ∨
      containsSub (clean_search.take len) (cleanText page.text) = false) :
    findLoop pages clean_search search_text l = .ok none := by
  induction l with
  | nil => rfl
  | cons n rest ih =>
      have hn : n - 1 < pages.length := hidx n (List.mem_cons_self n rest)
      have hpage : pages.get? (n - 1) = some (pages.get ⟨n - 1, hn⟩) :=
        List.get?_eq_get hn
      have hmem : pages.get ⟨n - 1, hn⟩ ∈ (pages.get? (n - 1)).toList := by
        rw [hpage]
        simp
      have hsnip := snippetLoop_eq_none clean_search
        (cleanText (pages.get ⟨n - 1, hn⟩).text) (pages.get ⟨n - 1, hn⟩)
        search_text n snippetLengths
        (h n (List.mem_cons_self n rest) (pages.get ⟨n - 1, hn⟩) hmem)
      have hidx' : ∀ m ∈ rest, m - 1 < pages.length :=
        fun m hm => hidx m (List.mem_cons_of_mem _ hm)
      have h' : ∀ m ∈ rest, ∀ page ∈ (pages.get? (m - 1)).toList, ∀ len ∈ snippetLengths,
          (clean_search.take len).length < 20 ∨
          containsSub (clean_search.take len) (cleanText page.text) = false :=
        fun m hm => h m (List.mem_cons_of_mem _ hm)
      simp only [findLoop, hpage]
      by_cases htext : (pages.get ⟨n - 1, hn⟩).text = []
      · simp only [htext, if_pos rfl]
        exact ih hidx' h'
      · simp only [if_neg htext, hsnip]
        exact ih hidx' h'

/-- The default position always has the fixed horizontal extent 72..540 and
carries the requested page number. -/
theorem createDefaultCoordinates_fixed (pg : Nat) (oh ow : Option ℚ) :
    (createDefaultCoordinates pg oh ow).boundingRect.x1 = 72 ∧
    (createDefaultCoordinates pg oh ow).boundingRect.x2 = 540 ∧
    (createDefaultCoordinates pg oh ow).boundingRect.pageNumber = pg := by
  cases oh with
  | none => exact ⟨rfl, rfl, rfl⟩
  | some h =>
      by_cases hz : h = 0 <;> simp [createDefaultCoordinates, hz]

/-- `defaultFallback` inherits the fixed extent, and uses the assumed
US-Letter 612x792 dimensions when the fallback page does not exist. -/
theorem defaultFallback_spec (pages : List Page) (page_number : Option Nat) :
    (defaultFallback pages page_number).boundingRect.x1 = 72 ∧
    (defaultFallback pages page_number).boundingRect.x2 = 540 ∧
    (defaultFallback pages page_number).boundingRect.pageNumber = fallbackPageNum page_number ∧
    (pages.length < fallbackPageNum page_number →
      (defaultFallback pages page_number).pageHeight = 792 ∧
      (defaultFallback pages page_number).pageWidth = 612) := by
  unfold defaultFallback
  by_cases hle : fallbackPageNum page_number ≤ pages.length
  · simp only [if_pos hle]
    constructor
    · cases hget : pages.get? (fallbackPageNum page_number - 1) <;>
        · simp only [hget]
          exact (createDefaultCoordinates_fixed _ _ _).1
    constructor
    · cases hget : pages.get? (fallbackPageNum page_number - 1) <;>
        · simp only [hget]
          exact (createDefaultCoordinates_fixed _ _ _).2.1
    constructor
    · cases hget : pages.get? (fallbackPageNum page_number - 1) <;>
        · simp only [hget]
          exact (createDefaultCoordinates_fixed _ _ _).2.2
    · intro hlt
      omega
  · simp only [if_neg hle]
    exact ⟨(createDefaultCoordinates_fixed _ _ _).1,
      (createDefaultCoordinates_fixed _ _ _).2.1,
      (createDefaultCoordinates_fixed _ _ _).2.2,
      fun _ => ⟨rfl, rfl⟩⟩

/-- Claim C9: snippet prefixes shorter than 20 characters are never tried, so
an excerpt whose normalized form is shorter than 20 characters — and more
generally any excerpt none of whose tried prefixes (lengths 200, 150, 100,
75, 50) occurs on any candidate page — does not fail: `find_text_coordinates`
returns the fixed default rectangle (x from 72 to 540) on the hinted or first
page, with assumed dimensions 612x792 when that page's real dimensions are
unavailable. -/
theorem c9_default_rectangle_fallback (pages : List Page) (search_text : Str)
    (page_number : Option Nat)
    (hvalid : page_number = none ∨
      ∃ n, page_number = some n ∧ 1 ≤ n ∧ n ≤ pages.length)
    (hnomatch : ∀ n ∈ pagesToSearch pages.length page_number,
      ∀ page ∈ (pages.get? (n - 1)).toList, ∀ len ∈ snippetLengths,
        ((cleanText search_text).take len).length < 20 ∨
        containsSub ((cleanText search_text).take len) (cleanText page.text) = false) :
    find_text_coordinates pages search_text page_number =
      .ok (defaultFallback pages page_number) ∧
    (defaultFallback pages page_number).boundingRect.x1 = 72 ∧
    (defaultFallback pages page_number).boundingRect.x2 = 540 ∧
    (defaultFallback pages page_number).boundingRect.pageNumber = fallbackPageNum page_number ∧
    (pages.length < fallbackPageNum page_number →
      (defaultFallback pages page_number).pageHeight = 792 ∧
      (defaultFallback pages page_number).pageWidth = 612) := by
  have hidx : ∀ n ∈ pagesToSearch pages.length page_number, n - 1 < pages.length := by
    intro n hn
    rcases hvalid with hnone | ⟨m, hm, hm1, hm2⟩
    · subst hnone
      simp only [pagesToSearch] at hn
      have := List.mem_range'_1.mp hn
      omega
    · subst hm
      simp only [pagesToSearch] at hn
      by_cases hz : m = 0
      · omega
      · simp only [if_neg hz, List.mem_singleton] at hn
        subst hn
        omega
  have hloop := findLoop_eq_none pages (cleanText search_text) search_text
    (pagesToSearch pages.length page_number) hidx hnomatch
  refine ⟨?_, defaultFallback_spec pages page_number⟩
  unfold find_text_coordinates
  rw [hloop]

/-- Claim C9, witness: a two-character excerpt (normalized form shorter than
20 characters) on a one-page document falls back to the default rectangle on
page 1. -/
theorem c9_default_rectangle_fallback_witness :
    find_text_coordinates [samplePage] "hi".data none =
      .ok (defaultFallback [samplePage] none) ∧
    (defaultFallback [samplePage] none).boundingRect.x1 = 72 ∧
    (defaultFallback [samplePage] none).boundingRect.x2 = 540 ∧
    (defaultFallback [samplePage] none).boundingRect.pageNumber = fallbackPageNum none := by
  have hmain := c9_default_rectangle_fallback [samplePage] "hi".data none
    (Or.inl rfl) (by decide)
  exact ⟨hmain.1, hmain.2.1, hmain.2.2.1, hmain.2.2.2.1⟩

/- ------------------------------------------------------------------ -/
/- Highlights (claim C10)                                              -/
/- ------------------------------------------------------------------ -/

/-- `RAGAnalyzer._parse_amount` (rag_analyzer.py lines 583-588): first money
match, else 0. -/
def parse_amount (s : Str) : Nat :=
  match moneySearch s with
  | some n => n
  | none => 0

/-- `RAGAnalyzer._get_default_position` (rag_analyzer.py lines 590-609), used
when no coordinate extractor is available.  The source dict carries only
`x1`, `y1`, `x2`, `y2` and `pageNumber`; the remaining fields of the uniform
`Rect`/`Position` records are filled with the implied extents and zero page
dimensions, and no theorem depends on them. -/
def getDefaultPositionRA (page_num : Nat) : Position :=
  ⟨⟨72, 200, 540, 250, 540 - 72, 250 - 200, page_num⟩,
    [⟨72, 200, 540, 250, 540 - 72, 250 - 200, page_num⟩], 0, 0⟩

/-- Position lookup in `_create_highlights_with_coordinates` (rag_analyzer.py
lines 512-515 etc.): ask the coordinate extractor when one was constructed,
else use the default position on page 1.  The extractor (whose construction
and `find_text_coordinates` calls are effectful) is abstracted as a function
from the finding text to a position. -/
def posOf (coord_extractor : Option (Str → Position)) (text : Str) : Position :=
  match coord_extractor with
  | some extractor => extractor text
  | none => getDefaultPositionRA 1

/-- A highlight record (rag_analyzer.py lines 517-528 etc.). -/
structure Highlight where
  id : Str
  pageNumber : Nat
  color : String
  priority : Nat
  category : Str
  text : Str
  statute : Str
  explanation : Str
  damages_estimate : Nat
  position : Position
deriving DecidableEq, Repr

/-- Python `f"hl-{n:03d}"`: zero-pad the decimal digits to width 3. -/
def hlId (n : Nat) : Str :=
  "hl-".data ++ (List.replicate (3 - (Nat.toDigits 10 n).length) '0' ++ Nat.toDigits 10 n)

/-- The highlight appended for one illegal clause (rag_analyzer.py lines
508-529): red, priority 1, damages parsed from `potential_recovery`. -/
def mkIllegalHighlight (coord_extractor : Option (Str → Position)) (highlight_id : Nat)
    (illegal : IllegalClause) : Highlight :=
  ⟨hlId highlight_id,
    (posOf coord_extractor (illegal.clause.getD [])).boundingRect.pageNumber,
    "red", 1,
    illegal.violation.getD "Legal Violation".data,
    illegal.clause.getD [],
    illegal.violation.getD [],
    illegal.explanation.getD [],
    parse_amount (illegal.potential_recovery.getD "0".data),
    posOf coord_extractor (illegal.clause.getD [])⟩

/-- The highlight appended for one risky term (rag_analyzer.py lines
532-553): orange with priority 2 when severity is "high", else yellow with
priority 3; damages 0. -/
def mkRiskyHighlight (coord_extractor : Option (Str → Position)) (highlight_id : Nat)
    (risky : RiskyTerm) : Highlight :=
  ⟨hlId highlight_id,
    (posOf coord_extractor (risky.term.getD [])).boundingRect.pageNumber,
    (if risky.severity.getD "medium".data = "high".data then "orange" else "yellow"),
    (if risky.severity.getD "medium".data = "high".data then 2 else 3),
    risky.risk.getD "Risky Term".data,
    risky.term.getD [],
    "M.G.L. c. 186".data,
    risky.explanation.getD [],
    0,
    posOf coord_extractor (risky.term.getD [])⟩

/-- The highlight appended for one favorable clause (rag_analyzer.py lines
556-576): green, priority 3, damages 0. -/
def mkFavorableHighlight (coord_extractor : Option (Str → Position)) (highlight_id : Nat)
    (favorable : FavorableClause) : Highlight :=
  ⟨hlId highlight_id,
    (posOf coord_extractor (favorable.clause.getD [])).boundingRect.pageNumber,
    "green", 3,
    favorable.benefit.getD "Favorable Clause".data,
    favorable.clause.getD [],
    favorable.relevant_law.getD [],
    favorable.benefit.getD [],
    0,
    posOf coord_extractor (favorable.clause.getD [])⟩

/-- `RAGAnalyzer._create_highlights_with_coordinates` (rag_analyzer.py lines
480-581): append one highlight per illegal clause, then per risky term, then
per favorable clause, numbering `highlight_id` from 1 across all three
loops. -/
def create_highlights_with_coordinates (coord_extractor : Option (Str → Position))
    (illegal_clauses : List IllegalClause) (risky_terms : List RiskyTerm)
    (favorable_clauses : List FavorableClause) : List Highlight :=
  let s1 := illegal_clauses.foldl
    (fun (a : List Highlight × Nat) f => (a.1 ++ [mkIllegalHighlight coord_extractor a.2 f], a.2 + 1))
    ([], 1)
  let s2 := risky_terms.foldl
    (fun (a : List Highlight × Nat) r => (a.1 ++ [mkRiskyHighlight coord_extractor a.2 r], a.2 + 1))
    s1
  let s3 := favorable_clauses.foldl
    (fun (a : List Highlight × Nat) f => (a.1 ++ [mkFavorableHighlight coord_extractor a.2 f], a.2 + 1))
    s2
  s3.1

/-- Map with an explicit running index. -/
def mapFrom {α β : Type} : Nat → (Nat → α → β) → List α → List β
  | _, _, [] => []
  | k, f, a :: l => f k a :: mapFrom (k + 1) f l

theorem mapFrom_length {α β : Type} (f : Nat → α → β) (l : List α) :
    ∀ k, (mapFrom k f l).length = l.length := by
  induction l with
  | nil => intro k; rfl
  | cons a l ih => intro k; simp [mapFrom, ih]

theorem mapFrom_get? {α β : Type} (f : Nat → α → β) (l : List α) :
    ∀ k j, (mapFrom k f l).get? j = (l.get? j).map (fun a => f (k + j) a) := by
  induction l with
  | nil => intro k j; cases j <;> rfl
  | cons a l ih =>
      intro k j
      cases j with
      | zero => rfl
      | succ j =>
          have harith : k + 1 + j = k + (j + 1) := by omega
          simp only [mapFrom, List.get?_cons_succ, ih (k + 1) j, harith]

theorem mapFrom_mem {α β : Type} (f : Nat → α → β) (l : List α) :
    ∀ k b, b ∈ mapFrom k f l → ∃ i a, b = f i a := by
  induction l with
  | nil => intro k b h; cases h
  | cons a l ih =>
      intro k b h
      rcases List.mem_cons.mp h with h1 | h2
      · exact ⟨k, a, h1⟩
      · exact ih (k + 1) b h2

/-- One counting loop of `_create_highlights_with_coordinates`, in closed
form. -/
theorem highlight_fold_eq {β : Type} (mk : Nat → β → Highlight) (l : List β) :
    ∀ (acc : List Highlight) (k : Nat),
      l.foldl (fun (a : List Highlight × Nat) x => (a.1 ++ [mk a.2 x], a.2 + 1)) (acc, k)
        = (acc ++ mapFrom k mk l, k + l.length) := by
  induction l with
  | nil => intro acc k; simp [mapFrom]
  | cons x l ih =>
      intro acc k
      simp only [List.foldl_cons, ih (acc ++ [mk k x]) (k + 1), mapFrom,
        List.append_assoc, List.singleton_append, List.length_cons, Prod.mk.injEq]
      exact ⟨trivial, by omega⟩

/-- Claim C10: the highlight list has exactly one entry per finding, ordered
illegal (red, priority 1, damages parsed from `potential_recovery`) then
risky (orange/priority 2 when severity is "high", else yellow/priority 3)
then favorable (green, priority 3); ids `hl-001`, `hl-002`, ... are numbered
sequentially in list order across the three sections, and every highlight's
`pageNumber` equals its position's bounding-rectangle page number. -/
theorem c10_highlights_order_and_ids (ce : Option (Str → Position))
    (il : List IllegalClause) (rk : List RiskyTerm) (fv : List FavorableClause) :
    create_highlights_with_coordinates ce il rk fv =
      mapFrom 1 (mkIllegalHighlight ce) il ++
        (mapFrom (1 + il.length) (mkRiskyHighlight ce) rk ++
          mapFrom (1 + il.length + rk.length) (mkFavorableHighlight ce) fv) ∧
    (create_highlights_with_coordinates ce il rk fv).length
      = il.length + rk.length + fv.length ∧
    (∀ j h, (create_highlights_with_coordinates ce il rk fv).get? j = some h →
      h.id = hlId (j + 1)) ∧
    (∀ h ∈ create_highlights_with_coordinates ce il rk fv,
      h.pageNumber = h.position.boundingRect.pageNumber) := by
  have heq : create_highlights_with_coordinates ce il rk fv =
      mapFrom 1 (mkIllegalHighlight ce) il ++
        (mapFrom (1 + il.length) (mkRiskyHighlight ce) rk ++
          mapFrom (1 + il.length + rk.length) (mkFavorableHighlight ce) fv) := by
    simp only [create_highlights_with_coordinates]
    rw [highlight_fold_eq (mkIllegalHighlight ce) il [] 1]
    rw [highlight_fold_eq (mkRiskyHighlight ce) rk _ _]
    rw [highlight_fold_eq (mkFavorableHighlight ce) fv _ _]
    simp [List.append_assoc]
  have lA : (mapFrom 1 (mkIllegalHighlight ce) il).length = il.length :=
    mapFrom_length _ _ _
  have lB : (mapFrom (1 + il.length) (mkRiskyHighlight ce) rk).length = rk.length :=
    mapFrom_length _ _ _
  refine ⟨heq, ?_, ?_, ?_⟩
  · rw [heq]
    simp only [List.length_append, lA, lB, mapFrom_length]
    omega
  · intro j h hj
    rw [heq] at hj
    by_cases hA : j < il.length
    · rw [List.get?_append (by rw [lA]; exact hA)] at hj
      rw [mapFrom_get?] at hj
      rcases Option.map_eq_some'.mp hj with ⟨a, _, hmk⟩
      rw [← hmk]
      have hid : (mkIllegalHighlight ce (1 + j) a).id = hlId (1 + j) := rfl
      rw [hid, Nat.add_comm]
    · rw [List.get?_append_right (by rw [lA]; omega)] at hj
      rw [lA] at hj
      by_cases hB : j < il.length + rk.length
      · rw [List.get?_append (by rw [lB]; omega)] at hj
        rw [mapFrom_get?] at hj
        rcases Option.map_eq_some'.mp hj with ⟨a, _, hmk⟩
        rw [← hmk]
        have hid : (mkRiskyHighlight ce (1 + il.length + (j - il.length)) a).id
            = hlId (1 + il.length + (j - il.length)) := rfl
        rw [hid]
        congr 1
        omega
      · rw [List.get?_append_right (by rw [lB]; omega)] at hj
        rw [lB] at hj
        rw [mapFrom_get?] at hj
        rcases Option.map_eq_some'.mp hj with ⟨a, _, hmk⟩
        rw [← hmk]
        have hid : (mkFavorableHighlight ce
              (1 + il.length + rk.length + (j - il.length - rk.length)) a).id
            = hlId (1 + il.length + rk.length + (j - il.length - rk.length)) := rfl
        rw [hid]
        congr 1
        omega
  · intro h hm
    rw [heq] at hm
    rcases List.mem_append.mp hm with h1 | h23
    · rcases mapFrom_mem _ _ _ _ h1 with ⟨i, a, rfl⟩
      rfl
    · rcases List.mem_append.mp h23 with h2 | h3
      · rcases mapFrom_mem _ _ _ _ h2 with ⟨i, a, rfl⟩
        rfl
      · rcases mapFrom_mem _ _ _ _ h3 with ⟨i, a, rfl⟩
        rfl
